import Mathlib

set_option maxRecDepth 8000
set_option linter.unusedVariables false

/-!
Shallow embedding of the web-pamphlet-viewer WASM tiling engine
(src/wasm/src/hasher.rs, src/wasm/src/tiler.rs, src/wasm/src/lib.rs).

Conventions of the embedding:
* u32 arithmetic is modelled on `Nat` with an explicit `% 2^32` at the
  operations that can wrap in the source (release-build / wasm semantics);
  a u32 division by zero is modelled as a `panic` outcome, as in Rust.
* Byte buffers are `List Nat` with entries below 256.
* The image codec library (the `image` crate) is external to the
  repository; its decoder, cropping, compositing and WebP writer are
  modelled by small concrete functions that expose exactly the structure
  the tiler relies on (dimensions, pixels, byte serialisation).
-/

/-- One RGBA pixel, each channel a byte. -/
structure Rgba where
  r : Nat
  g : Nat
  b : Nat
  a : Nat
  deriving DecidableEq

/-- Decoded raster image (model of the image crate's `DynamicImage`):
pixel dimensions plus a total pixel-lookup function. -/
structure Image where
  width : Nat
  height : Nat
  pix : Nat → Nat → Rgba

/-- Big-endian 32-bit read of the first four bytes of a list. -/
def readBE32 (l : List Nat) : Nat :=
  ((l.getD 0 0 * 256 + l.getD 1 0) * 256 + l.getD 2 0) * 256 + l.getD 3 0

/-- Model of `image::load_from_memory`. The real decoder parses PNG/JPEG
(a library outside this repository); it is modelled as a minimal raw
format: 4 bytes big-endian width, 4 bytes big-endian height (both
nonzero, hence below `2^32`), then `width*height` row-major RGBA byte
quadruples. It captures what the tiler relies on: either a decoded image
with known dimensions and pixels, or a decode error. -/
def load_from_memory (data : List Nat) : Except String Image :=
  let w := readBE32 data
  let h := readBE32 (data.drop 4)
  if data.all (fun b => b < 256) ∧ 1 ≤ w ∧ 1 ≤ h ∧ data.length = 8 + 4 * (w * h) then
    Except.ok
      { width := w, height := h,
        pix := fun i j =>
          let o := 8 + 4 * (j * w + i)
          ⟨data.getD o 0, data.getD (o + 1) 0, data.getD (o + 2) 0, data.getD (o + 3) 0⟩ }
  else
    Except.error "unsupported or malformed image data"

/-- Model of the image crate's alpha compositing of a source pixel over a
destination pixel (`Pixel::blend` for `Rgba<u8>`), in exact rational
arithmetic. The two fast paths (fully transparent / fully opaque source)
are exact; the general branch follows the crate's over-compositing
formula with the float rounding replaced by the floor to a byte. -/
def blend (dst src : Rgba) : Rgba :=
  if src.a = 0 then dst
  else if src.a = 255 then src
  else
    let fa : ℚ := src.a / 255
    let ba : ℚ := dst.a / 255
    let comp : Nat → Nat → Nat := fun sc dc =>
      (⌊((sc : ℚ) * fa + (dc : ℚ) * ba * (1 - fa)) / (fa + ba * (1 - fa))⌋).toNat
    { r := comp src.r dst.r, g := comp src.g dst.g, b := comp src.b dst.b,
      a := (⌊(fa + ba * (1 - fa)) * 255⌋).toNat }

/-- Model of `DynamicImage::crop_imm` at an in-bounds rectangle: the
sub-image of size `w × h` whose pixel `(i, j)` is the source pixel
`(x + i, y + j)`. (The crate clamps out-of-bounds rectangles; `tile_image`
only ever crops in bounds, so clamping is not modelled.) -/
def crop_imm (img : Image) (x y w h : Nat) : Image :=
  ⟨w, h, fun i j => img.pix (x + i) (y + j)⟩

/-- Model of `ImageBuffer::from_pixel`: a `w × h` canvas with every pixel
equal to `c`. -/
def from_pixel (w h : Nat) (c : Rgba) : Image :=
  ⟨w, h, fun _ _ => c⟩

/-- Model of `image::imageops::overlay(dst, src, 0, 0)`: inside the
source's extent the source pixel is composited over the destination
pixel, elsewhere the destination is untouched. (`to_rgba8` is the
identity in this model, the pixels already being RGBA.) -/
def overlay (dst src : Image) : Image :=
  ⟨dst.width, dst.height, fun i j =>
    if i < src.width ∧ j < src.height then blend (dst.pix i j) (src.pix i j)
    else dst.pix i j⟩

/-- Embedding of `crop_and_pad` (tiler.rs lines 109-131). The source
wraps the result in `Ok` but has no error path at all, so the model is a
total function. -/
def crop_and_pad (img : Image) (x y w h tile_size : Nat) : Image :=
  let cropped := crop_imm img x y w h
  if w < tile_size ∨ h < tile_size then
    overlay (from_pixel tile_size tile_size ⟨255, 255, 255, 0⟩) cropped
  else
    cropped

/-- Big-endian serialisation of a 32-bit value as four bytes. -/
def be32 (n : Nat) : List Nat :=
  [n / 2 ^ 24 % 256, n / 2 ^ 16 % 256, n / 2 ^ 8 % 256, n % 256]

/-- Model of `DynamicImage::write_to(buffer, ImageFormat::WebP)`, the
image crate's (lossless) WebP writer: an injective serialisation of the
image — RIFF/WEBP container magic, the dimensions, then the row-major
RGBA pixel bytes. The codec's bit-level output is a library detail; what
the claims rely on is that the bytes are a function of the pixels alone
and are never empty. -/
def writeWebP (img : Image) : List Nat :=
  [82, 73, 70, 70, 87, 69, 66, 80] ++ be32 img.width ++ be32 img.height ++
    (List.range img.height).flatMap (fun j =>
      (List.range img.width).flatMap (fun i =>
        [(img.pix i j).r, (img.pix i j).g, (img.pix i j).b, (img.pix i j).a]))

/-- Embedding of `encode_webp` (tiler.rs lines 134-142). The source
declares a `quality: f32` parameter but its body never uses it:
`img.write_to(&mut buffer, ImageFormat::WebP)` takes no quality. The
in-memory write of an RGBA image does not fail, so the `Result` wrapper
is modelled away; `tile_image` is the only caller and propagates no
error from it. The quality value is modelled as a rational since the
source performs no arithmetic on it. -/
def encode_webp (img : Image) (quality : ℚ) : List Nat :=
  writeWebP img

/-!
Embedding of src/wasm/src/hasher.rs. The `sha2` crate is modelled by a
full implementation of FIPS 180-4 SHA-256 on byte lists, with 32-bit
words carried as `Nat` reduced `% 2^32`.
-/

/-- Right rotation of a 32-bit word. -/
def rotr32 (n w : Nat) : Nat :=
  (w >>> n) ||| ((w <<< (32 - n)) % 2 ^ 32)

/-- SHA-256 big sigma 0. -/
def bSig0 (w : Nat) : Nat := rotr32 2 w ^^^ rotr32 13 w ^^^ rotr32 22 w

/-- SHA-256 big sigma 1. -/
def bSig1 (w : Nat) : Nat := rotr32 6 w ^^^ rotr32 11 w ^^^ rotr32 25 w

/-- SHA-256 small sigma 0. -/
def sSig0 (w : Nat) : Nat := rotr32 7 w ^^^ rotr32 18 w ^^^ (w >>> 3)

/-- SHA-256 small sigma 1. -/
def sSig1 (w : Nat) : Nat := rotr32 17 w ^^^ rotr32 19 w ^^^ (w >>> 10)

/-- SHA-256 choice function. -/
def chF (x y z : Nat) : Nat := (x &&& y) ^^^ ((x ^^^ 4294967295) &&& z)

/-- SHA-256 majority function. -/
def majF (x y z : Nat) : Nat := (x &&& y) ^^^ (x &&& z) ^^^ (y &&& z)

/-- The 64 SHA-256 round constants. -/
def sha256K : List Nat :=
  [1116352408, 1899447441, 3049323471, 3921009573,
   961987163, 1508970993, 2453635748, 2870763221,
   3624381080, 310598401, 607225278, 1426881987,
   1925078388, 2162078206, 2614888103, 3248222580,
   3835390401, 4022224774, 264347078, 604807628,
   770255983, 1249150122, 1555081692, 1996064986,
   2554220882, 2821834349, 2952996808, 3210313671,
   3336571891, 3584528711, 113926993, 338241895,
   666307205, 773529912, 1294757372, 1396182291,
   1695183700, 1986661051, 2177026350, 2456956037,
   2730485921, 2820302411, 3259730800, 3345764771,
   3516065817, 3600352804, 4094571909, 275423344,
   430227734, 506948616, 659060556, 883997877,
   958139571, 1322822218, 1537002063, 1747873779,
   1955562222, 2024104815, 2227730452, 2361852424,
   2428436474, 2756734187, 3204031479, 3329325298]

/-- The eight SHA-256 working variables. -/
structure Sha2State where
  a : Nat
  b : Nat
  c : Nat
  d : Nat
  e : Nat
  f : Nat
  g : Nat
  h : Nat
  deriving DecidableEq

/-- The SHA-256 initial hash value. -/
def sha256Init : Sha2State :=
  ⟨1779033703, 3144134277, 1013904242, 2773480762,
   1359893119, 2600822924, 528734635, 1541459225⟩

/-- One SHA-256 round, consuming one (constant, schedule word) pair. -/
def sha256Round (st : Sha2State) (kw : Nat × Nat) : Sha2State :=
  let t1 := (st.h + bSig1 st.e + chF st.e st.f st.g + kw.1 + kw.2) % 2 ^ 32
  let t2 := (bSig0 st.a + majF st.a st.b st.c) % 2 ^ 32
  ⟨(t1 + t2) % 2 ^ 32, st.a, st.b, st.c, (st.d + t1) % 2 ^ 32, st.e, st.f, st.g⟩

/-- Componentwise 32-bit addition of two states. -/
def sha2Add (x y : Sha2State) : Sha2State :=
  ⟨(x.a + y.a) % 2 ^ 32, (x.b + y.b) % 2 ^ 32, (x.c + y.c) % 2 ^ 32, (x.d + y.d) % 2 ^ 32,
   (x.e + y.e) % 2 ^ 32, (x.f + y.f) % 2 ^ 32, (x.g + y.g) % 2 ^ 32, (x.h + y.h) % 2 ^ 32⟩

/-- Group a byte list into big-endian 32-bit words. -/
def toWordsBE : List Nat → List Nat
  | b0 :: b1 :: b2 :: b3 :: rest =>
      (((b0 * 256 + b1) * 256 + b2) * 256 + b3) :: toWordsBE rest
  | _ => []

/-- One extension step of the message schedule, on the reversed
(most-recent-first) word list. -/
def schedStep (ws : List Nat) : List Nat :=
  ((sSig1 (ws.getD 1 0) + ws.getD 6 0 + sSig0 (ws.getD 14 0) + ws.getD 15 0) % 2 ^ 32) :: ws

/-- Iterate the schedule extension `n` times. -/
def schedExtend : Nat → List Nat → List Nat
  | 0, ws => ws
  | n + 1, ws => schedExtend n (schedStep ws)

/-- The 64-word message schedule of one 64-byte block. -/
def sha256Schedule (block : List Nat) : List Nat :=
  (schedExtend 48 (toWordsBE block).reverse).reverse

/-- SHA-256 compression of one 64-byte block into the running state. -/
def sha256Compress (st : Sha2State) (block : List Nat) : Sha2State :=
  sha2Add st ((sha256K.zip (sha256Schedule block)).foldl sha256Round st)

/-- Big-endian serialisation of a 64-bit value as eight bytes. -/
def be64 (n : Nat) : List Nat :=
  [n / 2 ^ 56 % 256, n / 2 ^ 48 % 256, n / 2 ^ 40 % 256, n / 2 ^ 32 % 256,
   n / 2 ^ 24 % 256, n / 2 ^ 16 % 256, n / 2 ^ 8 % 256, n % 256]

/-- SHA-256 message padding: a 0x80 byte, zeros to 56 mod 64, then the
message bit length as a big-endian 64-bit value. -/
def sha256Pad (msg : List Nat) : List Nat :=
  msg ++ 128 :: List.replicate ((119 - msg.length % 64) % 64) 0 ++ be64 (8 * msg.length)

/-- Split a list into successive 64-byte blocks. -/
def chunk64 (l : List Nat) : List (List Nat) :=
  if h : l = [] then [] else l.take 64 :: chunk64 (l.drop 64)
termination_by l.length
decreasing_by
  have hp : 0 < l.length := List.length_pos.mpr h
  simp only [List.length_drop]
  omega

/-- SHA-256 of a byte list: 32 output bytes. -/
def sha256 (msg : List Nat) : List Nat :=
  let fin := ((chunk64 (sha256Pad msg)).foldl sha256Compress sha256Init)
  be32 fin.a ++ be32 fin.b ++ be32 fin.c ++ be32 fin.d ++
    be32 fin.e ++ be32 fin.f ++ be32 fin.g ++ be32 fin.h

/-- Lowercase hexadecimal digit for a nibble. -/
def hexChar (n : Nat) : Char :=
  if n < 10 then Char.ofNat (48 + n) else Char.ofNat (87 + n)

/-- Model of `hex::encode`: two lowercase hex digits per byte. -/
def hexEncode (bytes : List Nat) : String :=
  ⟨bytes.flatMap (fun b => [hexChar (b / 16), hexChar (b % 16)])⟩

/-- Embedding of `calculate_hash` (hasher.rs lines 10-15): SHA-256 of
the data, rendered as a lowercase hexadecimal string. Total, hence pure,
deterministic and never failing. -/
def calculate_hash (data : List Nat) : String :=
  hexEncode (sha256 data)

/-- Embedding of `calculate_hash_short` (hasher.rs lines 25-28): the
first 16 characters of the full digest string. -/
def calculate_hash_short (data : List Nat) : String :=
  ⟨(calculate_hash data).data.take 16⟩

/-!
Embedding of src/wasm/src/tiler.rs.
-/

/-- Embedding of `TileInfo` (tiler.rs lines 10-20). -/
structure TileInfo where
  x : Nat
  y : Nat
  hash : String
  data : List Nat
  deriving DecidableEq

/-- Embedding of `TileResult` (tiler.rs lines 24-33). -/
structure TileResult where
  width : Nat
  height : Nat
  tile_size : Nat
  tiles : List TileInfo
  deriving DecidableEq

instance : Inhabited TileResult := ⟨⟨0, 0, 0, []⟩⟩

/-- Possible outcomes of a Rust call: a value, a returned `Err`, or a
panic (which in the wasm build aborts through the panic hook). -/
inductive Outcome where
  | ok (r : TileResult)
  | err (msg : String)
  | panic (msg : String)
  deriving DecidableEq

/-- The grid cells `(tx, ty)` visited by the nested loops of
`tile_image` (tiler.rs lines 67-68): for each `ty` below `tiles_y`, all
`tx` below `tiles_x`, in row-major order. -/
def gridCells (tiles_x tiles_y : Nat) : List (Nat × Nat) :=
  (List.range tiles_y).flatMap (fun ty => (List.range tiles_x).map (fun tx => (tx, ty)))

/-- The body of the `tile_image` loop for one grid cell (tiler.rs lines
70-94, minus the seen-hash bookkeeping): pixel origin and clamped
extent, crop-and-pad, WebP encoding with the defaulted quality
(`quality.unwrap_or(80.0)`), and the hash of the encoded bytes. The u32
multiplications wrap. -/
def tileCell (img : Image) (tile_size : Nat) (quality : Option ℚ) (c : Nat × Nat) : TileInfo :=
  let x := c.1 * tile_size % 2 ^ 32
  let y := c.2 * tile_size % 2 ^ 32
  let w := min tile_size (img.width - x)
  let h := min tile_size (img.height - y)
  let tile_img := crop_and_pad img x y w h tile_size
  let webp_data := encode_webp tile_img (quality.getD 80)
  { x := c.1, y := c.2, hash := calculate_hash webp_data, data := webp_data }

/-- One iteration of the `tile_image` loop on the running state
`(tiles, seen_hashes)` (tiler.rs lines 84-94): the hash is inserted into
the seen set if absent, and the tile is pushed unconditionally. The
`HashSet` is modelled as a list without duplicates. -/
def tileStep (img : Image) (tile_size : Nat) (quality : Option ℚ)
    (st : List TileInfo × List String) (c : Nat × Nat) : List TileInfo × List String :=
  let t := tileCell img tile_size quality c
  let seen := if t.hash ∈ st.2 then st.2 else t.hash :: st.2
  (st.1 ++ [t], seen)

/-- Embedding of `tile_image` (tiler.rs lines 47-104). Decode failure
returns the formatted error; with `tile_size = 0` the u32 division
computing `tiles_x` at line 60 panics (there is no validation before
it); otherwise the grid is computed — the u32 addition
`width + tile_size - 1` wrapping `% 2^32` — and the loop fills the tile
list. -/
def tile_image (image_data : List Nat) (tile_size : Nat) (quality : Option ℚ) : Outcome :=
  match load_from_memory image_data with
  | Except.error e => Outcome.err ("Failed to decode image: " ++ e)
  | Except.ok img =>
    if tile_size = 0 then Outcome.panic "attempt to divide by zero"
    else
      let tiles_x := (img.width + tile_size - 1) % 2 ^ 32 / tile_size
      let tiles_y := (img.height + tile_size - 1) % 2 ^ 32 / tile_size
      let st := (gridCells tiles_x tiles_y).foldl (tileStep img tile_size quality) ([], [])
      Outcome.ok { width := img.width, height := img.height,
                   tile_size := tile_size, tiles := st.1 }

/-!
Embedding of src/wasm/src/lib.rs.
-/

/-- Embedding of `JsTileResult` (lib.rs lines 51-56). -/
structure JsTileResult where
  width : Nat
  height : Nat
  tile_size : Nat
  tiles : List TileInfo
  deriving DecidableEq

/-- Embedding of `JsTileResult::get_tile_data` (lib.rs lines 93-100):
bounds-checked retrieval of one tile's encoded bytes. The receiver is
taken by shared reference in the source (`&self`), so the call cannot
modify the result; the embedding is accordingly a pure read. -/
def get_tile_data (r : JsTileResult) (index : Nat) : Except String (List Nat) :=
  if h : index < r.tiles.length then
    Except.ok (r.tiles.get ⟨index, h⟩).data
  else
    Except.error "Tile index out of bounds"

/-- Embedding of `TileMetadata` (lib.rs lines 165-169). -/
structure TileMetadata where
  x : Nat
  y : Nat
  hash : String
  deriving DecidableEq

/-- Embedding of `PageInfo` (lib.rs lines 156-161). -/
structure PageInfo where
  page : Nat
  width : Nat
  height : Nat
  tiles : List TileMetadata
  deriving DecidableEq

/-- JSON values, the model of `serde_json::Value` for the metadata
document. Numbers are the unsigned integers this code produces. -/
inductive Json where
  | num (n : Nat)
  | str (s : String)
  | arr (xs : List Json)
  | obj (fields : List (String × Json))

/-- Field lookup in a JSON object. -/
def jLookup (fields : List (String × Json)) (name : String) : Option Json :=
  (fields.find? (fun f => f.1 = name)).map (fun f => f.2)

/-- Model of the derived `Deserialize` reading an unsigned-integer field. -/
def getNatField (fields : List (String × Json)) (name : String) : Except String Nat :=
  match jLookup fields name with
  | none => Except.error ("missing field `" ++ name ++ "`")
  | some (Json.num n) => Except.ok n
  | some _ => Except.error ("invalid type for field `" ++ name ++ "`")

/-- Model of the derived `Deserialize` reading a string field. -/
def getStrField (fields : List (String × Json)) (name : String) : Except String String :=
  match jLookup fields name with
  | none => Except.error ("missing field `" ++ name ++ "`")
  | some (Json.str s) => Except.ok s
  | some _ => Except.error ("invalid type for field `" ++ name ++ "`")

/-- Model of the derived `Deserialize` for `TileMetadata`. -/
def tileMetadataFromJson : Json → Except String TileMetadata
  | Json.obj fields => do
      let x ← getNatField fields "x"
      let y ← getNatField fields "y"
      let hash ← getStrField fields "hash"
      pure ⟨x, y, hash⟩
  | _ => Except.error "invalid type: expected a map"

/-- Model of the derived `Deserialize` for `PageInfo`. -/
def pageInfoFromJson : Json → Except String PageInfo
  | Json.obj fields => do
      let page ← getNatField fields "page"
      let width ← getNatField fields "width"
      let height ← getNatField fields "height"
      let tiles ←
        (match jLookup fields "tiles" with
         | none => Except.error "missing field `tiles`"
         | some (Json.arr xs) => xs.mapM tileMetadataFromJson
         | some _ => Except.error "invalid type for field `tiles`")
      pure ⟨page, width, height, tiles⟩
  | _ => Except.error "invalid type: expected a map"

/-- Model of `serde_json::from_str::<Vec<PageInfo>>` at the JSON-value
level (lib.rs lines 199-200): the string-to-JSON lexer is the
(de)serialisation library, outside this repository's scope; what the
source determines is the struct-level decoding of the derived
`Deserialize`, modelled here, including its diagnostic messages. -/
def pagesFromJson : Json → Except String (List PageInfo) :=
  fun j =>
    match j with
    | Json.arr xs => xs.mapM pageInfoFromJson
    | _ => Except.error "invalid type: expected a sequence"

/-- Model of the derived `Serialize` for `TileMetadata` (declaration
field order). -/
def tileMetadataToJson (t : TileMetadata) : Json :=
  Json.obj [("x", Json.num t.x), ("y", Json.num t.y), ("hash", Json.str t.hash)]

/-- Model of the derived `Serialize` for `PageInfo` (declaration field
order). -/
def pageInfoToJson (p : PageInfo) : Json :=
  Json.obj [("page", Json.num p.page), ("width", Json.num p.width),
            ("height", Json.num p.height),
            ("tiles", Json.arr (p.tiles.map tileMetadataToJson))]

/-- The metadata document built by the `serde_json::json!` literal of
`generate_metadata` (lib.rs lines 202-206), with the `Date::now()`
timestamp passed in as `version`. Keys are kept in the order they are
written in the source; the claims are insensitive to key order. -/
def metadataDoc (version tile_size : Nat) (pages : List PageInfo) : Json :=
  Json.obj [("version", Json.num version), ("tile_size", Json.num tile_size),
            ("pages", Json.arr (pages.map pageInfoToJson))]

/-- Escaping of one character inside a JSON string literal. -/
def escapeChar (c : Char) : String :=
  if c = '"' then "\\\"" else if c = '\\' then "\\\\" else String.singleton c

/-- Escaping of a JSON string body. -/
def escapeString (s : String) : String :=
  String.join (s.data.map escapeChar)

mutual

/-- Model of `serde_json::to_string_pretty` (the pretty-printer's
indentation whitespace is elided; the rendered tokens — quoted keys,
values, punctuation — are those of the library). Total: serialisation
of this document never fails. -/
def Json.render : Json → String
  | Json.num n => toString n
  | Json.str s => "\"" ++ escapeString s ++ "\""
  | Json.arr xs => "[" ++ renderArr xs ++ "]"
  | Json.obj fs => "\x7b" ++ renderObj fs ++ "\x7d"

/-- Rendering of the elements of a JSON array, comma separated. -/
def renderArr : List Json → String
  | [] => ""
  | [x] => Json.render x
  | x :: y :: xs => Json.render x ++ ", " ++ renderArr (y :: xs)

/-- Rendering of the fields of a JSON object, comma separated. -/
def renderObj : List (String × Json) → String
  | [] => ""
  | [(k, v)] => "\"" ++ k ++ "\": " ++ Json.render v
  | (k, v) :: f :: fs => "\"" ++ k ++ "\": " ++ Json.render v ++ ", " ++ renderObj (f :: fs)

end

/-- Embedding of `generate_metadata` (lib.rs lines 198-210), with the
wall-clock read `js_sys::Date::now()` passed in as the `now` parameter
and the pages input taken at the JSON-value level (see
`pagesFromJson`). A deserialisation failure is returned as the parser's
message; otherwise the document is assembled and rendered. -/
def generate_metadata (now : Nat) (pages_json : Json) (tile_size : Nat) : Except String String :=
  match pagesFromJson pages_json with
  | Except.error e => Except.error e
  | Except.ok pages => Except.ok (Json.render (metadataDoc now tile_size pages))

/-!
Theorems. Claim theorems are named after their claim ids; concrete
inputs used by witnesses and counterexamples follow.
-/

/-- A 2 by 2 image in the modelled raw format. -/
def bytes2x2 : List Nat := [0, 0, 0, 2, 0, 0, 0, 2] ++ List.replicate 16 9

/-- A 3 by 3 image in the modelled raw format. -/
def bytes3x3 : List Nat := [0, 0, 0, 3, 0, 0, 0, 3] ++ List.replicate 36 200

/-- Projection of a successful outcome. -/
def getOk : Outcome → TileResult
  | Outcome.ok r => r
  | _ => default

/-- Projection of a successful decode. -/
def getOkImg : Except String Image → Image
  | Except.ok i => i
  | Except.error _ => ⟨0, 0, fun _ _ => ⟨0, 0, 0, 0⟩⟩

/-- Recognizer for lowercase hexadecimal digits. -/
def isLowerHexDigit (c : Char) : Bool :=
  ((48 ≤ c.toNat) && (c.toNat ≤ 57)) || ((97 ≤ c.toNat) && (c.toNat ≤ 102))

theorem be32_mem_lt (n : Nat) : ∀ x ∈ be32 n, x < 256 := by
  intro x hx
  simp only [be32, List.mem_cons, List.not_mem_nil, or_false] at hx
  rcases hx with rfl | rfl | rfl | rfl <;> omega

theorem sha256_length (msg : List Nat) : (sha256 msg).length = 32 := by
  simp [sha256, be32]

theorem sha256_mem_lt (msg : List Nat) : ∀ x ∈ sha256 msg, x < 256 := by
  intro x hx
  simp only [sha256, List.mem_append] at hx
  rcases hx with ((((((h | h) | h) | h) | h) | h) | h) | h <;>
    exact be32_mem_lt _ x h

theorem hexEncode_length (bs : List Nat) : (hexEncode bs).length = 2 * bs.length := by
  simp only [hexEncode, String.length_mk]
  induction bs with
  | nil => rfl
  | cons b bs ih => simp [List.flatMap_cons, ih]; omega

theorem hexChar_lower (n : Nat) (h : n < 16) : isLowerHexDigit (hexChar n) = true := by
  have hall : ∀ m : Nat, m < 16 → isLowerHexDigit (hexChar m) = true := by decide
  exact hall n h

theorem hexEncode_chars (bs : List Nat) (hb : ∀ b ∈ bs, b < 256) :
    ∀ c ∈ (hexEncode bs).data, isLowerHexDigit c = true := by
  intro c hc
  simp only [hexEncode, List.mem_flatMap, List.mem_cons, List.not_mem_nil, or_false] at hc
  obtain ⟨b, hbmem, hcase⟩ := hc
  have hblt := hb b hbmem
  rcases hcase with rfl | rfl
  · exact hexChar_lower _ (by omega)
  · exact hexChar_lower _ (by omega)

/-- C5: for every byte buffer (including the empty one), `calculate_hash`
is a total function returning a string of exactly 64 lowercase
hexadecimal characters, and `calculate_hash_short` is exactly its first
16 characters, hence a prefix of it. -/
theorem C5_digest_hex_and_truncation (data : List Nat) :
    (calculate_hash data).length = 64 ∧
    (∀ c ∈ (calculate_hash data).data, isLowerHexDigit c = true) ∧
    (calculate_hash_short data).data = (calculate_hash data).data.take 16 ∧
    (calculate_hash_short data).data <+: (calculate_hash data).data := by
  refine ⟨?_, ?_, rfl, ?_⟩
  · rw [calculate_hash, hexEncode_length, sha256_length]
  · exact hexEncode_chars _ (sha256_mem_lt data)
  · exact List.take_prefix 16 _

/-- Witness for C5 at the empty buffer. -/
theorem C5_digest_hex_and_truncation_witness :
    (calculate_hash []).length = 64 ∧
    (calculate_hash_short []).data <+: (calculate_hash []).data :=
  ⟨(C5_digest_hex_and_truncation []).1, (C5_digest_hex_and_truncation []).2.2.2⟩

/-- C1 (code evaluation at the failing input): on a decodable 2 by 2
image, `tile_image` with `tile_size = 0` hits the u32 division by zero
in the grid computation (tiler.rs line 60) and panics — there is no
validation of `tile_size`, so no `InvalidTileSize` error is ever
produced. -/
theorem C1_zero_tile_size_panics :
    tile_image bytes2x2 0 none = Outcome.panic "attempt to divide by zero" := by
  decide

/-- C2 (counterexample): tiling the same image at two different quality
values yields bit-identical results, so the quality value is not used by
the encoder. -/
theorem C2_quality_counterexample :
    tile_image bytes2x2 2 (some 10) = tile_image bytes2x2 2 (some 90) := rfl

/-- C2 (amended): when `quality` is absent the default 80 is supplied
(`quality.unwrap_or(80.0)`, tiler.rs line 79) and handed to
`encode_webp`, but `encode_webp` never uses its quality argument, so
every call of `tile_image` behaves exactly as with quality 80. -/
theorem C2_quality_defaulted_but_unused (d : List Nat) (T : Nat) (q : Option ℚ) :
    tile_image d T q = tile_image d T (some 80) := by
  cases q with
  | none => rfl
  | some q' => rfl

/-- The ordered sequence of tile hashes of an outcome. -/
def hashSeq : Outcome → Option (List String)
  | Outcome.ok r => some (r.tiles.map (fun t => t.hash))
  | _ => none

/-- C6: `tile_image` holds no hidden state — two calls on equal image
bytes, tile size and quality return equal results, and in particular
equal ordered hash sequences. -/
theorem C6_deterministic (d₁ d₂ : List Nat) (T₁ T₂ : Nat) (q₁ q₂ : Option ℚ)
    (hd : d₁ = d₂) (hT : T₁ = T₂) (hq : q₁ = q₂) :
    tile_image d₁ T₁ q₁ = tile_image d₂ T₂ q₂ ∧
    hashSeq (tile_image d₁ T₁ q₁) = hashSeq (tile_image d₂ T₂ q₂) := by
  subst hd; subst hT; subst hq
  exact ⟨rfl, rfl⟩

/-- Witness for C6 at a concrete image and tile size. -/
theorem C6_deterministic_witness :
    tile_image bytes2x2 2 (some 80) = tile_image bytes2x2 2 (some 80) ∧
    hashSeq (tile_image bytes2x2 2 (some 80)) = hashSeq (tile_image bytes2x2 2 (some 80)) :=
  C6_deterministic bytes2x2 bytes2x2 2 2 (some 80) (some 80) rfl rfl rfl

/-- C9: `get_tile_data` returns an index-out-of-bounds error value for
any index at or past the tile count and the tile's data bytes for any
index below it; it takes the result by shared reference and cannot
modify it. -/
theorem C9_get_tile_data_bounds (r : JsTileResult) (index : Nat) :
    (r.tiles.length ≤ index → get_tile_data r index = Except.error "Tile index out of bounds") ∧
    (∀ h : index < r.tiles.length,
      get_tile_data r index = Except.ok ((r.tiles.get ⟨index, h⟩).data)) := by
  constructor
  · intro hge
    rw [get_tile_data, dif_neg (by omega)]
  · intro h
    rw [get_tile_data, dif_pos h]

/-- A one-tile result used by the C9 witness. -/
def jsResult1 : JsTileResult :=
  ⟨2, 2, 2, [⟨0, 0, "h0", [1, 2, 3]⟩]⟩

/-- Witness for C9: index 5 is rejected, index 0 returns the data. -/
theorem C9_get_tile_data_bounds_witness :
    get_tile_data jsResult1 5 = Except.error "Tile index out of bounds" ∧
    get_tile_data jsResult1 0 = Except.ok [1, 2, 3] :=
  ⟨(C9_get_tile_data_bounds jsResult1 5).1 (by decide),
   ((C9_get_tile_data_bounds jsResult1 0).2 (by decide)).trans (by rfl)⟩

theorem foldl_tileStep_tiles (img : Image) (T : Nat) (q : Option ℚ) :
    ∀ (cs : List (Nat × Nat)) (acc : List TileInfo) (seen : List String),
      ((cs.foldl (tileStep img T q) (acc, seen)).1 = acc ++ cs.map (tileCell img T q)) := by
  intro cs
  induction cs with
  | nil => intro acc seen; simp
  | cons c cs ih =>
    intro acc seen
    rw [List.foldl_cons, List.map_cons]
    show ((cs.foldl (tileStep img T q) (tileStep img T q (acc, seen) c)).1 = _)
    rw [tileStep, ih, List.append_assoc]
    rfl

theorem sum_map_const_nat {α : Type} (l : List α) (c : Nat) :
    (l.map (fun _ => c)).sum = l.length * c := by
  induction l with
  | nil => simp
  | cons a l ih => simp [ih]; ring

theorem gridCells_length (n m : Nat) : (gridCells n m).length = m * n := by
  rw [gridCells, List.length_flatMap]
  have : (List.range m).map (List.length ∘ fun ty => (List.range n).map (fun tx => (tx, ty))) =
      (List.range m).map (fun _ => n) := by
    apply List.map_congr_left
    intro a _
    simp
  rw [this, sum_map_const_nat, List.length_range]

theorem gridCells_eq_map_range (n m : Nat) :
    gridCells n m = (List.range (m * n)).map (fun k => (k % n, k / n)) := by
  induction m with
  | zero => simp [gridCells]
  | succ m ih =>
    have hmap : (List.range n).map ((fun k => (k % n, k / n)) ∘ (fun x => m * n + x)) =
        (List.range n).map (fun tx => (tx, m)) := by
      apply List.map_congr_left
      intro tx htx
      have hlt : tx < n := List.mem_range.mp htx
      have hn : 0 < n := by omega
      have h1 : (m * n + tx) % n = tx := by
        rw [Nat.add_comm (m * n) tx, Nat.add_mul_mod_self_right]
        exact Nat.mod_eq_of_lt hlt
      have h2 : (m * n + tx) / n = m := by
        rw [Nat.add_comm (m * n) tx, Nat.add_mul_div_right tx m hn, Nat.div_eq_of_lt hlt]
        omega
      simp only [Function.comp_apply]
      rw [h1, h2]
    rw [gridCells, List.range_succ, List.flatMap_append]
    rw [show (List.range m).flatMap (fun ty => (List.range n).map fun tx => (tx, ty)) =
          gridCells n m from rfl, ih]
    rw [Nat.succ_mul, List.range_add, List.map_append, List.map_map, hmap]
    simp

theorem tile_image_ok_inv (d : List Nat) (T : Nat) (q : Option ℚ) (r : TileResult)
    (h : tile_image d T q = Outcome.ok r) :
    ∃ img, load_from_memory d = Except.ok img ∧ T ≠ 0 ∧
      r = { width := img.width, height := img.height, tile_size := T,
            tiles := (gridCells ((img.width + T - 1) % 2 ^ 32 / T)
                        ((img.height + T - 1) % 2 ^ 32 / T)).map (tileCell img T q) } := by
  unfold tile_image at h
  split at h
  · simp at h
  · rename_i img heq
    by_cases hT : T = 0
    · rw [if_pos hT] at h
      simp at h
    · rw [if_neg hT] at h
      refine ⟨img, heq, hT, ?_⟩
      have h' := Outcome.ok.inj h
      rw [← h', TileResult.mk.injEq]
      refine ⟨rfl, rfl, rfl, ?_⟩
      rw [foldl_tileStep_tiles]
      simp

theorem tile_image_ok_form (d : List Nat) (T : Nat) (q : Option ℚ) (img : Image)
    (hl : load_from_memory d = Except.ok img) (hT : T ≠ 0) :
    tile_image d T q = Outcome.ok
      { width := img.width, height := img.height, tile_size := T,
        tiles := (gridCells ((img.width + T - 1) % 2 ^ 32 / T)
                    ((img.height + T - 1) % 2 ^ 32 / T)).map (tileCell img T q) } := by
  unfold tile_image
  rw [hl]
  dsimp only
  rw [if_neg hT]
  congr 1
  rw [TileResult.mk.injEq]
  refine ⟨rfl, rfl, rfl, ?_⟩
  rw [foldl_tileStep_tiles]
  exact List.nil_append _

/-- The decoded 2 by 2 test image. -/
def img2x2 : Image := getOkImg (load_from_memory bytes2x2)

/-- The decoded 3 by 3 test image. -/
def img3x3 : Image := getOkImg (load_from_memory bytes3x3)

/-- C3 (amended): for every decodable image and positive tile size `T`
such that the u32 grid computation does not overflow
(`width + T - 1 < 2^32`, and likewise for the height), `tile_image`
returns exactly `ceil(width/T) * ceil(height/T)` tiles in row-major
order, the tile at list position `ty * tiles_x + tx` carrying grid
coordinates `x = tx`, `y = ty`. (Without the no-overflow hypotheses the
count is wrong: see the counterexample.) -/
theorem C3_grid_count_and_coords (d : List Nat) (T : Nat) (q : Option ℚ) (r : TileResult)
    (hok : tile_image d T q = Outcome.ok r)
    (hW : r.width + T - 1 < 2 ^ 32) (hH : r.height + T - 1 < 2 ^ 32) :
    r.tiles.length = ((r.width + T - 1) / T) * ((r.height + T - 1) / T) ∧
    ∀ tx ty t, tx < (r.width + T - 1) / T → ty < (r.height + T - 1) / T →
      r.tiles[ty * ((r.width + T - 1) / T) + tx]? = some t → t.x = tx ∧ t.y = ty := by
  obtain ⟨img, hl, hT, rfl⟩ := tile_image_ok_inv d T q r hok
  dsimp only at hW hH ⊢
  have hmW : (img.width + T - 1) % 2 ^ 32 = img.width + T - 1 := Nat.mod_eq_of_lt hW
  have hmH : (img.height + T - 1) % 2 ^ 32 = img.height + T - 1 := Nat.mod_eq_of_lt hH
  rw [hmW, hmH]
  constructor
  · rw [List.length_map, gridCells_length]
    exact Nat.mul_comm _ _
  · intro tx ty t htx hty hget
    have hn : 0 < (img.width + T - 1) / T := by omega
    have hidx : ty * ((img.width + T - 1) / T) + tx <
        ((img.height + T - 1) / T) * ((img.width + T - 1) / T) := by
      calc ty * ((img.width + T - 1) / T) + tx
          < ty * ((img.width + T - 1) / T) + (img.width + T - 1) / T := by omega
        _ = (ty + 1) * ((img.width + T - 1) / T) := by ring
        _ ≤ ((img.height + T - 1) / T) * ((img.width + T - 1) / T) :=
            Nat.mul_le_mul_right _ (by omega)
    rw [gridCells_eq_map_range, List.getElem?_map, List.getElem?_map,
        List.getElem?_range hidx] at hget
    simp only [Option.map_some'] at hget
    have h1 : (ty * ((img.width + T - 1) / T) + tx) % ((img.width + T - 1) / T) = tx := by
      rw [Nat.add_comm, Nat.add_mul_mod_self_right]
      exact Nat.mod_eq_of_lt htx
    have h2 : (ty * ((img.width + T - 1) / T) + tx) / ((img.width + T - 1) / T) = ty := by
      rw [Nat.add_comm, Nat.add_mul_div_right tx ty hn, Nat.div_eq_of_lt htx]
      omega
    have ht := Option.some.inj hget
    rw [← ht, h1, h2]
    exact ⟨rfl, rfl⟩

/-- C3 (counterexample): on a decodable 2 by 2 image with
`tile_size = 4294967295`, the u32 computation `width + tile_size - 1`
wraps, the computed grid is empty, and `tile_image` succeeds with 0
tiles although `ceil(2/4294967295) * ceil(2/4294967295) = 1`. -/
theorem C3_counterexample :
    tile_image bytes2x2 4294967295 none =
      Outcome.ok (getOk (tile_image bytes2x2 4294967295 none)) ∧
    (getOk (tile_image bytes2x2 4294967295 none)).tiles.length ≠
      (((getOk (tile_image bytes2x2 4294967295 none)).width + 4294967295 - 1) / 4294967295) *
        (((getOk (tile_image bytes2x2 4294967295 none)).height + 4294967295 - 1) / 4294967295) := by
  constructor
  · rfl
  · decide

/-- Witness for C3 on the 3 by 3 image at tile size 2 (grid 2 by 2). -/
theorem C3_grid_count_and_coords_witness :
    (getOk (tile_image bytes3x3 2 none)).tiles.length =
      (((getOk (tile_image bytes3x3 2 none)).width + 2 - 1) / 2) *
        (((getOk (tile_image bytes3x3 2 none)).height + 2 - 1) / 2) ∧
    ∀ tx ty t, tx < ((getOk (tile_image bytes3x3 2 none)).width + 2 - 1) / 2 →
      ty < ((getOk (tile_image bytes3x3 2 none)).height + 2 - 1) / 2 →
      (getOk (tile_image bytes3x3 2 none)).tiles[ty *
          (((getOk (tile_image bytes3x3 2 none)).width + 2 - 1) / 2) + tx]? = some t →
      t.x = tx ∧ t.y = ty :=
  C3_grid_count_and_coords bytes3x3 2 none (getOk (tile_image bytes3x3 2 none)) rfl
    (by decide) (by decide)

/-- C7: on every successful call, one tile is pushed for every grid
cell — the tile list is exactly the cell list mapped through the tile
construction, its length is the full computed grid size, every tile's
data is non-empty encoded bytes, and the seen-hash bookkeeping has no
influence on the tiles produced (the same tile list results from any
initial seen-hash set). -/
theorem C7_no_dedup_omission (d : List Nat) (T : Nat) (q : Option ℚ) (img : Image)
    (hl : load_from_memory d = Except.ok img) (hT : T ≠ 0) :
    ∃ r, tile_image d T q = Outcome.ok r ∧
      r.tiles = (gridCells ((img.width + T - 1) % 2 ^ 32 / T)
                   ((img.height + T - 1) % 2 ^ 32 / T)).map (tileCell img T q) ∧
      r.tiles.length = ((img.width + T - 1) % 2 ^ 32 / T) *
        ((img.height + T - 1) % 2 ^ 32 / T) ∧
      (∀ t ∈ r.tiles, t.data ≠ []) ∧
      (∀ seen₀ : List String,
        (((gridCells ((img.width + T - 1) % 2 ^ 32 / T)
             ((img.height + T - 1) % 2 ^ 32 / T)).foldl
               (tileStep img T q) ([], seen₀)).1 = r.tiles)) := by
  refine ⟨_, tile_image_ok_form d T q img hl hT, rfl, ?_, ?_, ?_⟩
  · dsimp only
    rw [List.length_map, gridCells_length]
    exact Nat.mul_comm _ _
  · intro t ht
    dsimp only at ht
    obtain ⟨c, hc, rfl⟩ := List.mem_map.mp ht
    simp [tileCell, encode_webp, writeWebP]
  · intro seen₀
    rw [foldl_tileStep_tiles]
    exact List.nil_append _

/-- Witness for C7 on the 2 by 2 image at tile size 2. -/
theorem C7_no_dedup_omission_witness :
    ∃ r, tile_image bytes2x2 2 none = Outcome.ok r ∧
      r.tiles = (gridCells ((img2x2.width + 2 - 1) % 2 ^ 32 / 2)
                   ((img2x2.height + 2 - 1) % 2 ^ 32 / 2)).map (tileCell img2x2 2 none) ∧
      r.tiles.length = ((img2x2.width + 2 - 1) % 2 ^ 32 / 2) *
        ((img2x2.height + 2 - 1) % 2 ^ 32 / 2) ∧
      (∀ t ∈ r.tiles, t.data ≠ []) ∧
      (∀ seen₀ : List String,
        (((gridCells ((img2x2.width + 2 - 1) % 2 ^ 32 / 2)
             ((img2x2.height + 2 - 1) % 2 ^ 32 / 2)).foldl
               (tileStep img2x2 2 none) ([], seen₀)).1 = r.tiles)) :=
  C7_no_dedup_omission bytes2x2 2 none img2x2 rfl (by decide)

/-- C8: in every successful result, each tile's hash is
`calculate_hash` of that same tile's data bytes (the encoded bytes, not
raw pixels), and hence any two tiles with identical data have identical
hash. -/
theorem C8_hash_of_encoded_bytes (d : List Nat) (T : Nat) (q : Option ℚ) (r : TileResult)
    (hok : tile_image d T q = Outcome.ok r) :
    (∀ t ∈ r.tiles, t.hash = calculate_hash t.data) ∧
    (∀ t₁ ∈ r.tiles, ∀ t₂ ∈ r.tiles, t₁.data = t₂.data → t₁.hash = t₂.hash) := by
  obtain ⟨img, hl, hT, rfl⟩ := tile_image_ok_inv d T q r hok
  have hmain : ∀ t ∈ (gridCells ((img.width + T - 1) % 2 ^ 32 / T)
      ((img.height + T - 1) % 2 ^ 32 / T)).map (tileCell img T q),
      t.hash = calculate_hash t.data := by
    intro t ht
    obtain ⟨c, hc, rfl⟩ := List.mem_map.mp ht
    rfl
  exact ⟨hmain, fun t₁ h₁ t₂ h₂ hd => by rw [hmain t₁ h₁, hmain t₂ h₂, hd]⟩

/-- Witness for C8 on the 2 by 2 image at tile size 2. -/
theorem C8_hash_of_encoded_bytes_witness :
    (∀ t ∈ (getOk (tile_image bytes2x2 2 none)).tiles, t.hash = calculate_hash t.data) ∧
    (∀ t₁ ∈ (getOk (tile_image bytes2x2 2 none)).tiles,
      ∀ t₂ ∈ (getOk (tile_image bytes2x2 2 none)).tiles,
        t₁.data = t₂.data → t₁.hash = t₂.hash) :=
  C8_hash_of_encoded_bytes bytes2x2 2 none (getOk (tile_image bytes2x2 2 none)) rfl

/-- C4: for every grid cell with the clamped extents computed by
`tile_image`, the tile handed to the encoder is always exactly
`tile_size` by `tile_size`: an edge cell (extent smaller than the tile
size in either dimension) is composited at the top-left corner of a
fresh `tile_size` square canvas of fully transparent white
RGBA(255,255,255,0), every canvas pixel outside the cropped extent
staying transparent white, while a full cell skips padding entirely and
is returned as the bare crop. -/
theorem C4_crop_and_pad_padding (img : Image) (x y w h T : Nat)
    (hw : w = min T (img.width - x)) (hh : h = min T (img.height - y)) :
    (crop_and_pad img x y w h T).width = T ∧
    (crop_and_pad img x y w h T).height = T ∧
    ((w < T ∨ h < T) →
      ∀ i j, (crop_and_pad img x y w h T).pix i j =
        if i < w ∧ j < h then blend ⟨255, 255, 255, 0⟩ (img.pix (x + i) (y + j))
        else ⟨255, 255, 255, 0⟩) ∧
    (¬(w < T ∨ h < T) → crop_and_pad img x y w h T = crop_imm img x y w h) := by
  have hwT : w ≤ T := by rw [hw]; exact Nat.min_le_left _ _
  have hhT : h ≤ T := by rw [hh]; exact Nat.min_le_left _ _
  by_cases hp : w < T ∨ h < T
  · refine ⟨?_, ?_, fun _ i j => ?_, fun hc => absurd hp hc⟩
    · simp only [crop_and_pad, if_pos hp]
      rfl
    · simp only [crop_and_pad, if_pos hp]
      rfl
    · simp only [crop_and_pad, if_pos hp, overlay, from_pixel, crop_imm]
  · refine ⟨?_, ?_, fun hc => absurd hc hp, fun _ => ?_⟩
    · simp only [crop_and_pad, if_neg hp, crop_imm]
      omega
    · simp only [crop_and_pad, if_neg hp, crop_imm]
      omega
    · simp only [crop_and_pad, if_neg hp]

/-- Witness for C4 at the bottom-right edge cell of the 3 by 3 image
tiled at size 2 (extent 1 by 1, padding required). -/
theorem C4_crop_and_pad_padding_witness :
    (crop_and_pad img3x3 2 2 1 1 2).width = 2 ∧
    (crop_and_pad img3x3 2 2 1 1 2).height = 2 ∧
    ((1 < 2 ∨ 1 < 2) →
      ∀ i j, (crop_and_pad img3x3 2 2 1 1 2).pix i j =
        if i < 1 ∧ j < 1 then blend ⟨255, 255, 255, 0⟩ (img3x3.pix (2 + i) (2 + j))
        else ⟨255, 255, 255, 0⟩) ∧
    (¬(1 < 2 ∨ 1 < 2) → crop_and_pad img3x3 2 2 1 1 2 = crop_imm img3x3 2 2 1 1) :=
  C4_crop_and_pad_padding img3x3 2 2 1 1 2 (by decide) (by decide)

theorem isInfix_append_left {α : Type} (pre : List α) {l m : List α}
    (h : l <:+: m) : l <:+: pre ++ m := by
  obtain ⟨s, t, hst⟩ := h
  exact ⟨pre ++ s, t, by rw [← hst]; simp [List.append_assoc]⟩

theorem isInfix_append_right {α : Type} (post : List α) {l m : List α}
    (h : l <:+: m) : l <:+: m ++ post := by
  obtain ⟨s, t, hst⟩ := h
  exact ⟨s, t ++ post, by rw [← hst]; simp [List.append_assoc]⟩

theorem renderObj_key_substr :
    ∀ (fs : List (String × Json)) (k : String) (v : Json),
      (k, v) ∈ fs → k.data <:+: (renderObj fs).data := by
  intro fs
  induction fs with
  | nil => intro k v hk; simp at hk
  | cons f fs ih =>
    intro k v hk
    obtain ⟨k', v'⟩ := f
    rcases List.mem_cons.mp hk with heq | hmem
    · have hk' : k' = k := by
        have := congrArg Prod.fst heq
        simpa using this.symm
      subst hk'
      cases fs with
      | nil =>
        refine ⟨"\"".data, ("\": " ++ Json.render v').data, ?_⟩
        rw [renderObj]
        simp [String.data_append, List.append_assoc]
      | cons f' fs' =>
        refine ⟨"\"".data,
          ("\": " ++ Json.render v' ++ ", " ++ renderObj (f' :: fs')).data, ?_⟩
        rw [renderObj]
        simp [String.data_append, List.append_assoc]
    · cases fs with
      | nil => simp at hmem
      | cons f' fs' =>
        have hrec := ih k v hmem
        rw [renderObj]
        rw [String.data_append]
        exact isInfix_append_left _ hrec

theorem render_obj_key_substr (fs : List (String × Json)) (k : String) (v : Json)
    (h : (k, v) ∈ fs) : k.data <:+: (Json.render (Json.obj fs)).data := by
  rw [Json.render, String.data_append, String.data_append]
  exact isInfix_append_right _ (isInfix_append_left _ (renderObj_key_substr fs k v h))

/-- Fields of a JSON object. -/
def objFields : Json → List (String × Json)
  | Json.obj fs => fs
  | _ => []

/-- C10: over a pages input that decodes to one page with two tiles,
`generate_metadata` succeeds and its serialised output contains the keys
`version`, `tile_size` and `pages`, the document's single page carrying
a `tiles` array of length 2; and on any input the call fails exactly
when the pages deserialisation fails, propagating the parser's
diagnostic message unchanged. -/
theorem C10_generate_metadata (now ts : Nat) (j : Json) (p : PageInfo)
    (hp : pagesFromJson j = Except.ok [p]) (h2 : p.tiles.length = 2) :
    (∃ s, generate_metadata now j ts = Except.ok s ∧
      "version".data <:+: s.data ∧
      "tile_size".data <:+: s.data ∧
      "pages".data <:+: s.data ∧
      ∃ tl, jLookup (objFields (pageInfoToJson p)) "tiles" = some (Json.arr tl) ∧
        tl.length = 2) ∧
    (∀ (j' : Json) (m : String),
      generate_metadata now j' ts = Except.error m ↔ pagesFromJson j' = Except.error m) := by
  constructor
  · refine ⟨Json.render (metadataDoc now ts [p]), ?_, ?_, ?_, ?_, ?_⟩
    · unfold generate_metadata
      rw [hp]
    · rw [metadataDoc]
      exact render_obj_key_substr _ "version" (Json.num now) (by simp)
    · rw [metadataDoc]
      exact render_obj_key_substr _ "tile_size" (Json.num ts) (by simp)
    · rw [metadataDoc]
      exact render_obj_key_substr _ "pages" (Json.arr ([p].map pageInfoToJson)) (by simp)
    · refine ⟨p.tiles.map tileMetadataToJson, rfl, by simp [h2]⟩
  · intro j' m
    constructor
    · intro hgen
      unfold generate_metadata at hgen
      split at hgen
      · rename_i e heq
        rw [heq, Except.error.inj hgen]
      · simp at hgen
    · intro hj
      unfold generate_metadata
      rw [hj]

/-- A pages value with one page and two tiles, for the C10 witness. -/
def pW : PageInfo := ⟨0, 1000, 1000, [⟨0, 0, "abc123"⟩, ⟨1, 0, "def456"⟩]⟩

/-- The JSON form of `pW`, for the C10 witness. -/
def jW : Json :=
  Json.arr [Json.obj
    [("page", Json.num 0), ("width", Json.num 1000), ("height", Json.num 1000),
     ("tiles", Json.arr
       [Json.obj [("x", Json.num 0), ("y", Json.num 0), ("hash", Json.str "abc123")],
        Json.obj [("x", Json.num 1), ("y", Json.num 0), ("hash", Json.str "def456")]])]]

/-- Witness for C10 on one page with two tiles. -/
theorem C10_generate_metadata_witness :
    (∃ s, generate_metadata 12345 jW 512 = Except.ok s ∧
      "version".data <:+: s.data ∧
      "tile_size".data <:+: s.data ∧
      "pages".data <:+: s.data ∧
      ∃ tl, jLookup (objFields (pageInfoToJson pW)) "tiles" = some (Json.arr tl) ∧
        tl.length = 2) ∧
    (∀ (j' : Json) (m : String),
      generate_metadata 12345 j' 512 = Except.error m ↔
        pagesFromJson j' = Except.error m) :=
  C10_generate_metadata 12345 512 jW pW rfl rfl
